import Mathlib

/-!
Verification development for the my_converterbot repository.

The repository has three Python source files:
 - md_to_docx.py : a Markdown-to-DOCX converter (class MarkdownToDocxConverter),
 - rep_to_txt.py : a directory-tree renderer (scan_directory and friends),
 - bot.py        : a Telegram front end (not involved in any claim below).

The definitions in this file are a shallow embedding of those sources.
Python strings are Lean Strings, Python lists are Lean Lists, the mutable
converter object is a Converter record threaded explicitly, and the DOCX
document is a list of abstract Block values recording the structural
content each emitter produces (run-level font/colour details are not part
of any claim and are not modelled).  Regular expressions from the source
are embedded as explicit matching functions on the character list of the
line, including the exact leftmost-greedy backtracking behaviour on the
inputs the converter feeds them.
-/

/-- Characters matched by the regex class \s (space, tab, newline, carriage
return, vertical tab, form feed). -/
def isSpaceChar (c : Char) : Bool :=
  c == ' ' || c == '\t' || c == '\n' || c == '\r' ||
    c == Char.ofNat 11 || c == Char.ofNat 12

/-- The character list of a string (Python iterates strings by character). -/
def chars (s : String) : List Char := s.data

/-- Build a string back from a character list. -/
def fromChars (l : List Char) : String := ⟨l⟩

/-- Python str.strip(): remove leading and trailing whitespace. -/
def pyStrip (s : String) : String :=
  ⟨((s.data.dropWhile isSpaceChar).reverse.dropWhile isSpaceChar).reverse⟩

/-- Python str.startswith. -/
def startsWithS (s p : String) : Bool := p.data.isPrefixOf s.data

/-- Python membership test: c in s. -/
def containsC (s : String) (c : Char) : Bool := s.data.contains c

/-- Python str.split(sep) for a one-character separator: "".split(sep) is
[""], and n separators produce n+1 pieces. -/
def pySplit (sep : Char) : List Char → List (List Char)
  | [] => [[]]
  | c :: rest =>
    let r := pySplit sep rest
    if c == sep then [] :: r
    else
      match r with
      | h :: t => (c :: h) :: t
      | [] => [[c]]

/-- Embeds the regex test and substitution on a line for the pattern
matching a bullet list marker: on success returns the line with the
marker (one bullet character and one whitespace character) removed. -/
def matchBullet (s : String) : Option String :=
  match s.data with
  | c :: sp :: rest =>
    if (c == '-' || c == '*' || c == '+') && isSpaceChar sp then some ⟨rest⟩ else none
  | _ => none

/-- Embeds the regex for a numbered list marker (one or more digits, a dot,
one whitespace character): on success returns the line with the marker
removed. -/
def matchNumber (s : String) : Option String :=
  let ds := s.data.takeWhile Char.isDigit
  if ds.isEmpty then none
  else
    match s.data.dropWhile Char.isDigit with
    | '.' :: sp :: rest => if isSpaceChar sp then some ⟨rest⟩ else none
    | _ => none

/-- Embeds the regex for a bullet marker preceded by exactly two spaces. -/
def matchIndentBullet (s : String) : Option String :=
  match s.data with
  | c1 :: c2 :: rest =>
    if c1 == ' ' && c2 == ' ' then matchBullet ⟨rest⟩ else none
  | _ => none

/-- Embeds the regex for a numbered marker preceded by exactly two spaces. -/
def matchIndentNumber (s : String) : Option String :=
  match s.data with
  | c1 :: c2 :: rest =>
    if c1 == ' ' && c2 == ' ' then matchNumber ⟨rest⟩ else none
  | _ => none

/-- Embeds the heading regex: one to six hash characters, at least one
whitespace character, then a nonempty title.  Returns the heading level and
the title.  When everything after the whitespace run is empty the regex
engine backtracks and the title becomes the last whitespace character; this
cannot happen on stripped lines but is modelled faithfully. -/
def matchHeading (s : String) : Option (Nat × String) :=
  let hs := s.data.takeWhile (· == '#')
  let rest := s.data.dropWhile (· == '#')
  let n := hs.length
  if n == 0 || decide (6 < n) then none
  else
    let sp := rest.takeWhile isSpaceChar
    let body := rest.dropWhile isSpaceChar
    if sp.isEmpty then none
    else if !body.isEmpty then some (n, ⟨body⟩)
    else if decide (2 ≤ sp.length) then some (n, ⟨sp.drop (sp.length - 1)⟩)
    else none

/-- Embeds the footnote-definition regex (open bracket, caret, digits, close
bracket, colon, optional whitespace, nonempty text). Returns the digit string
of the key and the definition text. -/
def matchFootnoteDef (s : String) : Option (String × String) :=
  match s.data with
  | '[' :: '^' :: rest =>
    let ds := rest.takeWhile Char.isDigit
    if ds.isEmpty then none
    else
      match rest.dropWhile Char.isDigit with
      | ']' :: ':' :: r3 =>
        let sp := r3.takeWhile isSpaceChar
        let body := r3.dropWhile isSpaceChar
        if !body.isEmpty then some (⟨ds⟩, ⟨body⟩)
        else if !sp.isEmpty then some (⟨ds⟩, ⟨sp.drop (sp.length - 1)⟩)
        else none
      | _ => none
  | _ => none

/-- Case folding as performed by re.IGNORECASE on the characters relevant to
the bibliography pattern: ASCII letters and the Cyrillic range А..Я plus Ё. -/
def rusLower (c : Char) : Char :=
  if 65 ≤ c.toNat && c.toNat ≤ 90 then Char.ofNat (c.toNat + 32)
  else if 0x410 ≤ c.toNat && c.toNat ≤ 0x42F then Char.ofNat (c.toNat + 0x20)
  else if c.toNat == 0x401 then Char.ofNat 0x451
  else c

/-- Boolean test that a string is a prefix of a character list. -/
def isPref (p : String) (l : List Char) : Bool := p.data.isPrefixOf l

/-- Embeds the case-insensitive bibliography-heading regex: one or more hash
characters, optional whitespace, then one of the three keywords
(список литературы / bibliography / references). -/
def matchBibHeading (s : String) : Bool :=
  let hs := s.data.takeWhile (· == '#')
  if hs.isEmpty then false
  else
    let body := ((s.data.dropWhile (· == '#')).dropWhile isSpaceChar).map rusLower
    isPref "bibliography" body || isPref "references" body ||
      (if isPref "список" body then
        let r := body.drop ("список".data.length)
        !(r.takeWhile isSpaceChar).isEmpty && isPref "литературы" (r.dropWhile isSpaceChar)
      else false)

/-- Embeds the quote-marker substitution: remove a leading greater-than sign
and at most one following whitespace character. -/
def stripQuote (s : String) : String :=
  match s.data with
  | '>' :: sp :: rest => if isSpaceChar sp then ⟨rest⟩ else ⟨sp :: rest⟩
  | '>' :: [] => ⟨[]⟩
  | l => ⟨l⟩

/-- The subset of DocumentSettings fields that influence the structural
content of the produced document (the remaining fields of the Python class
are fonts, margins and spacings, which style blocks but never change which
blocks are emitted). Defaults are the values set in DocumentSettings.__init__. -/
structure DocumentSettings where
  auto_numbering_headings : Bool := false
  numbering_format : String := "decimal"
  table_caption_position : String := "above"
  figure_caption_position : String := "below"
deriving DecidableEq, Repr

/-- The settings produced by DocumentSettings() with no field overridden. -/
def defaultSettings : DocumentSettings := {}

/-- One structural element of the produced DOCX document.  Each constructor
records the arguments of one emitter in md_to_docx.py:
heading carries the level and the full title (auto-number included);
listItem carries the list kind ("bullet" or "number"), the item text, the
nesting level and the left indent in hundredths of a centimetre;
caption is a Caption-styled paragraph; bibHeading and bibItem are the blocks
produced by process_bibliography; footnoteDef carries the footnote key (as
the digit string Python uses) and text. -/
inductive Block where
  | pageBreak
  | heading (level : Nat) (text : String)
  | codeBlock (text : String)
  | caption (text : String)
  | table (headers : List String) (rows : List (List String))
  | listItem (kind : String) (text : String) (level : Nat) (indentCm100 : Nat)
  | bibHeading
  | bibItem (idx : Nat) (text : String)
  | quote (text : String)
  | hr
  | paragraph (text : String)
  | footnoteDef (num : String) (text : String)
deriving DecidableEq, Repr

/-- The mutable state of a MarkdownToDocxConverter object: its settings, the
document built so far, and the four counters set up in __init__. -/
structure Converter where
  settings : DocumentSettings
  doc : List Block
  heading_counters : List Nat
  footnote_counter : Nat
  table_counter : Nat
  figure_counter : Nat
deriving DecidableEq, Repr

/-- MarkdownToDocxConverter.__init__: fresh empty document, six heading
counters at zero, all other counters at zero. -/
def mkConverter (settings : DocumentSettings) : Converter :=
  { settings := settings
    doc := []
    heading_counters := List.replicate 6 0
    footnote_counter := 0
    table_counter := 0
    figure_counter := 0 }

/-- generate_heading_number: when auto numbering is off, return the empty
string and leave the state alone.  Otherwise increment the counter of the
given level (levels are 1-based; the caller only passes 1..6), zero the
counters of all deeper levels, and render either the simple or the decimal
(dot-joined nonzero prefix) number followed by a dot and a space. -/
def generate_heading_number (c : Converter) (level : Nat) : String × Converter :=
  if !c.settings.auto_numbering_headings then ("", c)
  else
    let cs0 := c.heading_counters.set (level - 1) (c.heading_counters.getD (level - 1) 0 + 1)
    let cs := cs0.mapIdx fun i v => if level ≤ i then 0 else v
    if c.settings.numbering_format == "simple" then
      (toString (cs.getD (level - 1) 0) ++ ". ", { c with heading_counters := cs })
    else
      let numbers := ((List.range level).map fun i => cs.getD i 0).filter fun n => decide (0 < n)
      (if !numbers.isEmpty then String.intercalate "." (numbers.map toString) ++ ". " else "",
        { c with heading_counters := cs })

/-- The left indent (in hundredths of a centimetre) given to a list item:
Cm(level * 0.75) in the source. -/
def listIndentCm100 (level : Nat) : Nat := 75 * level

/-- The line-collection loop of process_list, walking the lines from the
start index onwards (the Python loop while i < len(lines) over lines[i:]):
strip each line; a plain bullet or numbered marker collects the item at
nesting level 0, a two-space-indented marker at level 1, a blank line is
skipped, and any other line (or the end of input) ends the run.  Returns the
items (kind, text, level) and the number of lines the loop consumed. -/
def collectList : List String → List (String × String × Nat) × Nat
  | [] => ([], 0)
  | l :: rest =>
    let line := pyStrip l
    match matchBullet line with
    | some t => let (r, k) := collectList rest; (("bullet", t, 0) :: r, k + 1)
    | none =>
      match matchNumber line with
      | some t => let (r, k) := collectList rest; (("number", t, 0) :: r, k + 1)
      | none =>
        match matchIndentBullet line with
        | some t => let (r, k) := collectList rest; (("bullet", t, 1) :: r, k + 1)
        | none =>
          match matchIndentNumber line with
          | some t => let (r, k) := collectList rest; (("number", t, 1) :: r, k + 1)
          | none =>
            if line == "" then let (r, k) := collectList rest; (r, k + 1)
            else ([], 0)

/-- process_list: collect the contiguous list items from start_idx and emit
one listItem block per item.  The Python method returns the loop stop index
minus one and the caller immediately adds one; this embedding returns the
stop index (start index plus consumed count) directly. -/
def process_list (lines : List String) (start_idx : Nat) : List Block × Nat :=
  let (items, k) := collectList (lines.drop start_idx)
  (items.map fun it => Block.listItem it.1 it.2.1 it.2.2 (listIndentCm100 it.2.2),
   start_idx + k)

/-- The line-collection loop of process_table, walking the lines from the
start index onwards: collect stripped lines that contain a pipe, skip blank
lines, stop at the first other line or the end of input.  Returns the
collected lines and the number of lines the loop consumed. -/
def collectTable : List String → List String × Nat
  | [] => ([], 0)
  | l :: rest =>
    let line := pyStrip l
    if containsC line '|' then
      let (r, k) := collectTable rest; (line :: r, k + 1)
    else if line == "" then
      let (r, k) := collectTable rest; (r, k + 1)
    else ([], 0)

/-- Cell extraction of process_table: split a collected line on pipes, drop
the first and last pieces, strip each cell. -/
def splitPipes (line : String) : List String :=
  (((pySplit '|' line.data).drop 1).dropLast).map fun cs => pyStrip ⟨cs⟩

/-- The header row of a collected table: the cells of its first line. -/
def tableHeaders (table_lines : List String) : List String :=
  splitPipes (table_lines.headD "")

/-- Pad a row with empty cells up to the given width (cells of a docx row
that are never written keep their initial empty text). -/
def padTo (n : Nat) (l : List String) : List String :=
  l ++ List.replicate (n - l.length) ""

/-- The data rows of a collected table: every line after the first two (the
second collected line is the markdown separator row and is discarded); each
row keeps at most one cell per header column and missing cells are empty. -/
def tableRows (table_lines : List String) : List (List String) :=
  let n := (tableHeaders table_lines).length
  (table_lines.drop 2).map fun l => padTo n ((splitPipes l).take n)

/-- process_table: collect the pipe lines from start_idx.  With fewer than
two collected lines the table is abandoned: nothing is emitted, the counter
is untouched, and the cursor moves to the line after start_idx (Python
returns start_idx and the caller adds one).  Otherwise the caption "Таблица
N" is emitted before the table body when the configured position is "above"
and after it when the position is "below", incrementing the table counter
once in either case, and the cursor resumes at the stop index. -/
def process_table (settings : DocumentSettings) (table_counter : Nat)
    (lines : List String) (start_idx : Nat) : List Block × Nat × Nat :=
  let (table_lines, k) := collectTable (lines.drop start_idx)
  if table_lines.length < 2 then ([], table_counter, start_idx + 1)
  else
    let tbl := Block.table (tableHeaders table_lines) (tableRows table_lines)
    if settings.table_caption_position == "above" then
      ([Block.caption ("Таблица " ++ toString (table_counter + 1)), tbl],
       table_counter + 1, start_idx + k)
    else if settings.table_caption_position == "below" then
      ([tbl, Block.caption ("Таблица " ++ toString (table_counter + 1))],
       table_counter + 1, start_idx + k)
    else ([tbl], table_counter, start_idx + k)

/-- The line-collection loop of process_code_block: gather raw lines until a
closing fence (a stripped line starting with three backquotes) or the end of
input.  Returns the gathered lines and the number of lines consumed before
the fence. -/
def collectCode : List String → List String × Nat
  | [] => ([], 0)
  | l :: rest =>
    if startsWithS (pyStrip l) "```" then ([], 0)
    else let (r, k) := collectCode rest; (l :: r, k + 1)

/-- process_code_block: one codeBlock holding the newline-join of the raw
lines between the fences.  The Python method returns the index of the
closing fence and the caller adds one; this embedding returns the resumption
index directly. -/
def process_code_block (lines : List String) (start_idx : Nat) : List Block × Nat :=
  let (code_lines, k) := collectCode (lines.drop (start_idx + 1))
  ([Block.codeBlock (String.intercalate "\n" code_lines)], start_idx + 1 + k + 1)

/-- The item-collection loop of process_bibliography: numbered lines collect
their text, blank lines are skipped, any other line (or the end of input)
stops the loop.  Returns the items and the number of lines consumed. -/
def collectBib : List String → List String × Nat
  | [] => ([], 0)
  | l :: rest =>
    let line := pyStrip l
    match matchNumber line with
    | some t => let (r, k) := collectBib rest; (t :: r, k + 1)
    | none =>
      if line == "" then let (r, k) := collectBib rest; (r, k + 1)
      else ([], 0)

/-- process_bibliography: when any items were collected, emit the heading
"СПИСОК ЛИТЕРАТУРЫ" and one renumbered entry per item.  Returns the
resumption index (Python returns one less and the caller adds one). -/
def process_bibliography (lines : List String) (start_idx : Nat) : List Block × Nat :=
  let (items, k) := collectBib (lines.drop start_idx)
  ((if items.isEmpty then []
    else Block.bibHeading :: items.enum.map fun p => Block.bibItem (p.1 + 1) p.2),
   start_idx + k)

/-- Python dict assignment d[k] = v on an insertion-ordered dictionary
represented as an association list: replace the value in place when the key
exists, append otherwise. -/
def dictInsert (d : List (String × String)) (k v : String) : List (String × String) :=
  if d.any fun p => p.1 == k then d.map fun p => if p.1 == k then (k, v) else p
  else d ++ [(k, v)]

/-- First value stored under a key (total lookup with empty-string default;
the converter only looks up keys that are present). -/
def lookupD (d : List (String × String)) (k : String) : String :=
  ((d.find? fun p => p.1 == k).map fun p => p.2).getD ""

/-- Python int() on the digit strings used as footnote keys. -/
def toNatVal (s : String) : Nat :=
  s.data.foldl (fun n c => 10 * n + (c.toNat - 48)) 0

/-- Numeric comparison of footnote keys, the sort key used when the
definitions are emitted. -/
def intLE (a b : String) : Prop := toNatVal a ≤ toNatVal b

instance : DecidableRel intLE := fun a b => Nat.decLe (toNatVal a) (toNatVal b)

instance : IsTotal String intLE := ⟨fun a b => Nat.le_total (toNatVal a) (toNatVal b)⟩

instance : IsTrans String intLE := ⟨fun _ _ _ => Nat.le_trans⟩

/-- The sorted key order in which collected footnote definitions are
emitted. -/
def sortedKeys (defs : List (String × String)) : List String :=
  List.insertionSort intLE (defs.map Prod.fst)

/-- The separator paragraph of fifty underscores placed before the footnote
definitions. -/
def sepLine : String := ⟨List.replicate 50 '_'⟩

/-- The blocks appended after the main pass: nothing when no footnote
definition was collected, otherwise the separator paragraph followed by one
footnoteDef block per definition in ascending numeric key order. -/
def footnoteTail (defs : List (String × String)) : List Block :=
  if defs.isEmpty then []
  else Block.paragraph sepLine ::
    (sortedKeys defs).map fun k => Block.footnoteDef k (lookupD defs k)

/-- One iteration of the while-loop in convert, for the line at index i
(assumed in range): classify the stripped line exactly in the branch order
of the source (blank / footnote definition / heading / code fence / pipe
table / list marker / bibliography heading / quote / horizontal rule /
plain paragraph) and return the next cursor value together with the updated
converter and footnote-definition dictionary. -/
def convertStep (lines : List String) (i : Nat)
    (c : Converter) (defs : List (String × String)) :
    Nat × Converter × List (String × String) :=
  let stripped := pyStrip (lines.getD i "")
  if stripped == "" then (i + 1, c, defs)
  else
    match matchFootnoteDef stripped with
    | some (num, text) => (i + 1, c, dictInsert defs num text)
    | none =>
      if startsWithS stripped "#" then
        match matchHeading stripped with
        | some (level, title) =>
          let c2 := if level == 2 then { c with doc := c.doc ++ [Block.pageBreak] } else c
          let r := generate_heading_number c2 level
          (i + 1, { r.2 with doc := r.2.doc ++ [Block.heading level (r.1 ++ title)] }, defs)
        | none => (i + 1, c, defs)
      else if startsWithS stripped "```" then
        let r := process_code_block lines i
        (r.2, { c with doc := c.doc ++ r.1 }, defs)
      else if containsC stripped '|' then
        let r := process_table c.settings c.table_counter lines i
        (r.2.2, { c with doc := c.doc ++ r.1, table_counter := r.2.1 }, defs)
      else if (matchBullet stripped).isSome || (matchNumber stripped).isSome then
        let r := process_list lines i
        (r.2, { c with doc := c.doc ++ r.1 }, defs)
      else if matchBibHeading stripped then
        let r := process_bibliography lines (i + 1)
        (r.2, { c with doc := c.doc ++ r.1 }, defs)
      else if startsWithS stripped ">" then
        (i + 1, { c with doc := c.doc ++ [Block.quote (stripQuote stripped)] }, defs)
      else if stripped == "---" || stripped == "***" || stripped == "___" then
        (i + 1, { c with doc := c.doc ++ [Block.hr] }, defs)
      else
        (i + 1, { c with doc := c.doc ++ [Block.paragraph stripped] }, defs)

/-- The while-loop of convert.  Every iteration advances the cursor by at
least one, so the loop runs at most lines.length times; the fuel argument
(always called with lines.length + 1) only makes the recursion structural
and is never exhausted. -/
def convertLoop (lines : List String) :
    Nat → Nat → Converter × List (String × String) → Converter × List (String × String)
  | 0, _, st => st
  | fuel + 1, i, st =>
    if i < lines.length then
      let r := convertStep lines i st.1 st.2
      convertLoop lines fuel r.1 r.2
    else st

/-- The body of convert on an already-decoded source text, starting from a
given converter object: split into lines, run the classification loop, then
append the footnote tail to the document.  Returns the finished converter
document. -/
def convertFrom (c : Converter) (content : String) : List Block :=
  let lines := (pySplit '\n' content.data).map fromChars
  let r := convertLoop lines (lines.length + 1) 0 (c, [])
  r.1.doc ++ footnoteTail r.2

/-- A whole conversion as the command-line entry point performs it: build a
fresh converter from the settings and convert the given source text. -/
def convertContent (settings : DocumentSettings) (content : String) : List Block :=
  convertFrom (mkConverter settings) content

/-- parse_markdown_file: a source file is modelled as the partial function
from encoding names to the text the file decodes to under that encoding.
The source opens the file with encoding utf-8 only and wraps any failure in
an exception; no other encoding is ever tried. -/
def parse_markdown_file (file : String → Option String) : Except String String :=
  match file "utf-8" with
  | some content => .ok content
  | none => .error "Ошибка чтения файла"

/-- convert at the file level: read the source (utf-8 only), convert the
text, and return the output path together with the produced document; a
read failure propagates as the error. -/
def convert (settings : DocumentSettings) (file : String → Option String)
    (output_path : String) : Except String (String × List Block) :=
  match parse_markdown_file file with
  | .ok content => .ok (output_path, convertContent settings content)
  | .error e => .error e

/-- Two conversions of the same source with the same settings, each run the
way main() runs them: a fresh converter object is constructed for each
invocation. -/
def runTwice (settings : DocumentSettings) (content : String) :
    List Block × List Block :=
  (convertFrom (mkConverter settings) content, convertFrom (mkConverter settings) content)

/-- Projection of the loop result used by the frame theorems: the converter
state and the collected footnote definitions at the end of the main pass. -/
def convertEnd (c : Converter) (content : String) :
    Converter × List (String × String) :=
  let lines := (pySplit '\n' content.data).map fromChars
  convertLoop lines (lines.length + 1) 0 (c, [])

/-- C7: running the converter twice on the same source text and settings,
each run constructing its own fresh converter as main() does, yields
identical structural output; the fresh converter starts from six zero
heading counters, zero table, figure and footnote counters, and an empty
document, so no state carries over between conversions. -/
theorem runTwice_identical (settings : DocumentSettings) (content : String) :
    (runTwice settings content).1 = (runTwice settings content).2 ∧
    (mkConverter settings).heading_counters = List.replicate 6 0 ∧
    (mkConverter settings).table_counter = 0 ∧
    (mkConverter settings).figure_counter = 0 ∧
    (mkConverter settings).footnote_counter = 0 ∧
    (mkConverter settings).doc = [] :=
  ⟨rfl, rfl, rfl, rfl, rfl, rfl⟩

/-- C2 (counterexample): on the two-line source consisting of one
pipe-containing line and one ordinary line, the abandoned table line is NOT
re-emitted as a paragraph: the output consists of the second line only, and
no paragraph holding the pipe line appears. -/
theorem table_abandon_cex :
    convertContent defaultSettings "| a |\ntext" = [Block.paragraph "text"] ∧
    Block.paragraph "| a |" ∉ convertContent defaultSettings "| a |\ntext" := by
  constructor
  · decide
  · decide

/-- C2 (amended): when fewer than two pipe lines are collected the table is
abandoned: process_table emits nothing, leaves the table counter unchanged
and hands the cursor back pointing just past the opening line, so the main
loop resumes at the following line and the pipe-containing line itself is
dropped from the output rather than re-emitted as a paragraph (witness: the
concrete conversion of the second conjunct). -/
theorem table_abandon (settings : DocumentSettings) (tc : Nat)
    (lines : List String) (i : Nat)
    (h : (collectTable (lines.drop i)).1.length < 2) :
    process_table settings tc lines i = ([], tc, i + 1) ∧
    convertContent defaultSettings "| a |\ntext" = [Block.paragraph "text"] := by
  constructor
  · rcases hco : collectTable (lines.drop i) with ⟨tl, k⟩
    rw [hco] at h
    unfold process_table
    rw [hco]
    simp [h]
  · decide

theorem table_abandon_witness :
    process_table defaultSettings 0 ["| a |", "text"] 0 = ([], 0, 1) :=
  (table_abandon defaultSettings 0 ["| a |", "text"] 0 (by decide)).1

/-- A source file readable only under cp1251: its decoding table yields text
for cp1251 and nothing for any other encoding. -/
def cp1251File : String → Option String :=
  fun enc => if enc == "cp1251" then some "привет" else none

/-- A source file readable under utf-8. -/
def utf8File : String → Option String :=
  fun enc => if enc == "utf-8" then some "hello" else none

/-- C6 (counterexample): a source file that decodes under cp1251 but not
under utf-8 is rejected with the read error, not converted: the source
tries only the utf-8 encoding and has no fallback list. -/
theorem encoding_fallback_cex :
    parse_markdown_file cp1251File = Except.error "Ошибка чтения файла" ∧
    cp1251File "cp1251" = some "привет" ∧
    convert defaultSettings cp1251File "out.docx" =
      Except.error "Ошибка чтения файла" := by
  refine ⟨rfl, rfl, rfl⟩

/-- C6 (amended): convert returns the output path exactly when the source
decodes under utf-8, and fails with the read error whenever the utf-8
decode fails, regardless of any other encoding the file would decode
under. -/
theorem convert_utf8_only (settings : DocumentSettings)
    (file : String → Option String) (out : String) :
    (∀ content, file "utf-8" = some content →
      convert settings file out = Except.ok (out, convertContent settings content)) ∧
    (file "utf-8" = none →
      convert settings file out = Except.error "Ошибка чтения файла") := by
  constructor
  · intro content h
    unfold convert parse_markdown_file
    rw [h]
  · intro h
    unfold convert parse_markdown_file
    rw [h]

theorem convert_utf8_only_witness :
    convert defaultSettings utf8File "out.docx" =
      Except.ok ("out.docx", convertContent defaultSettings "hello") ∧
    convert defaultSettings cp1251File "out.docx" =
      Except.error "Ошибка чтения файла" :=
  ⟨(convert_utf8_only defaultSettings utf8File "out.docx").1 "hello" rfl,
   (convert_utf8_only defaultSettings cp1251File "out.docx").2 rfl⟩

/-- C1: with auto numbering on and the decimal format, numbering a level-L
heading increments the counter of level L, resets every deeper counter to
zero, and renders the dot-joined sequence of the nonzero counters at levels
1..L followed by a dot and a space; on the claim's example sequence of
headings the rendered numbers are 1., 1.1., 1.2., 2., 2.1. -/
theorem heading_number_decimal (c : Converter) (L : Nat)
    (h1 : 1 ≤ L) (h6 : L ≤ 6)
    (hlen : c.heading_counters.length = 6)
    (hauto : c.settings.auto_numbering_headings = true)
    (hfmt : c.settings.numbering_format = "decimal") :
    ((generate_heading_number c L).2.heading_counters.getD (L - 1) 0
        = c.heading_counters.getD (L - 1) 0 + 1) ∧
    (∀ i, L ≤ i → (generate_heading_number c L).2.heading_counters.getD i 0 = 0) ∧
    ((generate_heading_number c L).1 =
      String.intercalate "."
        ((((List.range L).map fun i =>
            (generate_heading_number c L).2.heading_counters.getD i 0).filter
              fun n => decide (0 < n)).map toString) ++ ". ") ∧
    convertContent { defaultSettings with auto_numbering_headings := true }
        "# A\n## B\n## C\n# D\n## E" =
      [Block.heading 1 "1. A", Block.pageBreak, Block.heading 2 "1.1. B",
       Block.pageBreak, Block.heading 2 "1.2. C", Block.heading 1 "2. D",
       Block.pageBreak, Block.heading 2 "2.1. E"] := by
  have hbne : (c.settings.numbering_format == "simple") = false := by
    rw [hfmt]; decide
  have hgen : generate_heading_number c L =
      (let cs := (c.heading_counters.set (L - 1)
          (c.heading_counters.getD (L - 1) 0 + 1)).mapIdx fun i v => if L ≤ i then 0 else v
       let numbers := ((List.range L).map fun i => cs.getD i 0).filter fun n => decide (0 < n)
       (if !numbers.isEmpty then
          String.intercalate "." (numbers.map toString) ++ ". " else "",
        { c with heading_counters := cs })) := by
    unfold generate_heading_number
    rw [hauto, hbne]
    simp
  set cs := (c.heading_counters.set (L - 1)
      (c.heading_counters.getD (L - 1) 0 + 1)).mapIdx fun i v => if L ≤ i then 0 else v with hcs
  have hlt : L - 1 < c.heading_counters.length := by omega
  have hset : cs.getD (L - 1) 0 = c.heading_counters.getD (L - 1) 0 + 1 := by
    rw [hcs, List.getD_eq_getElem?_getD, List.getElem?_mapIdx,
      List.getElem?_set_self hlt]
    have : ¬ (L ≤ L - 1) := by omega
    simp [this]
  have hreset : ∀ i, L ≤ i → cs.getD i 0 = 0 := by
    intro i hi
    rw [hcs, List.getD_eq_getElem?_getD, List.getElem?_mapIdx]
    rcases (c.heading_counters.set (L - 1)
        (c.heading_counters.getD (L - 1) 0 + 1))[i]? with _ | v
    · simp
    · simp [hi]
  have hmem : c.heading_counters.getD (L - 1) 0 + 1 ∈
      ((List.range L).map fun i => cs.getD i 0).filter fun n => decide (0 < n) := by
    refine List.mem_filter.mpr ⟨List.mem_map.mpr ⟨L - 1, List.mem_range.mpr (by omega), hset⟩, by simp⟩
  have hne2 : ((((List.range L).map fun i => cs.getD i 0).filter
      fun n => decide (0 < n)).isEmpty) = false :=
    List.isEmpty_eq_false.mpr (List.ne_nil_of_mem hmem)
  refine ⟨?_, ?_, ?_, by decide⟩
  · rw [hgen]
    simpa using hset
  · intro i hi
    rw [hgen]
    simpa using hreset i hi
  · rw [hgen]
    simp only [hne2, Bool.not_false, if_true]

/-- A fresh converter with auto numbering switched on, used as the concrete
instance of the numbering theorems. -/
def cAuto : Converter := mkConverter { defaultSettings with auto_numbering_headings := true }

theorem heading_number_decimal_witness :
    (1 ≤ 2 ∧ 2 ≤ 6 ∧ cAuto.heading_counters.length = 6 ∧
      cAuto.settings.auto_numbering_headings = true ∧
      cAuto.settings.numbering_format = "decimal") ∧
    ((generate_heading_number cAuto 2).2.heading_counters.getD (2 - 1) 0
        = cAuto.heading_counters.getD (2 - 1) 0 + 1) ∧
    (∀ i, 2 ≤ i → (generate_heading_number cAuto 2).2.heading_counters.getD i 0 = 0) ∧
    ((generate_heading_number cAuto 2).1 =
      String.intercalate "."
        ((((List.range 2).map fun i =>
            (generate_heading_number cAuto 2).2.heading_counters.getD i 0).filter
              fun n => decide (0 < n)).map toString) ++ ". ") ∧
    convertContent { defaultSettings with auto_numbering_headings := true }
        "# A\n## B\n## C\n# D\n## E" =
      [Block.heading 1 "1. A", Block.pageBreak, Block.heading 2 "1.1. B",
       Block.pageBreak, Block.heading 2 "1.2. C", Block.heading 1 "2. D",
       Block.pageBreak, Block.heading 2 "2.1. E"] :=
  ⟨⟨by decide, by decide, by decide, by decide, by decide⟩,
   heading_number_decimal cAuto 2 (by decide) (by decide) (by decide)
     (by decide) (by decide)⟩

/-- generate_heading_number with auto numbering off: empty string, state
untouched. -/
theorem generate_heading_number_off (c : Converter) (level : Nat)
    (h : c.settings.auto_numbering_headings = false) :
    generate_heading_number c level = ("", c) := by
  unfold generate_heading_number
  simp [h]

/-- generate_heading_number never changes the settings. -/
theorem generate_heading_number_settings (c : Converter) (L : Nat) :
    (generate_heading_number c L).2.settings = c.settings := by
  unfold generate_heading_number
  dsimp only
  repeat' split
  all_goals rfl

/-- generate_heading_number with auto numbering off never changes the
heading counters. -/
theorem generate_heading_number_counters_off (c : Converter) (L : Nat)
    (h : c.settings.auto_numbering_headings = false) :
    (generate_heading_number c L).2.heading_counters = c.heading_counters := by
  rw [generate_heading_number_off c L h]

/-- One loop step never changes the settings, and with auto numbering off it
never changes the heading counters either. -/
theorem convertStep_off (lines : List String) (i : Nat) (c : Converter)
    (defs : List (String × String))
    (h : c.settings.auto_numbering_headings = false) :
    (convertStep lines i c defs).2.1.settings = c.settings ∧
    (convertStep lines i c defs).2.1.heading_counters = c.heading_counters := by
  unfold convertStep
  dsimp only
  split
  · exact ⟨rfl, rfl⟩
  split
  · exact ⟨rfl, rfl⟩
  split
  · split
    · split
      · have h2 : ({ c with doc := c.doc ++ [Block.pageBreak] } :
            Converter).settings.auto_numbering_headings = false := h
        rw [generate_heading_number_off _ _ h2]
        exact ⟨rfl, rfl⟩
      · rw [generate_heading_number_off _ _ h]
        exact ⟨rfl, rfl⟩
    · exact ⟨rfl, rfl⟩
  split
  · exact ⟨rfl, rfl⟩
  split
  · exact ⟨rfl, rfl⟩
  split
  · exact ⟨rfl, rfl⟩
  split
  · exact ⟨rfl, rfl⟩
  split
  · exact ⟨rfl, rfl⟩
  split
  · exact ⟨rfl, rfl⟩
  exact ⟨rfl, rfl⟩

/-- The whole loop never changes the settings, and with auto numbering off
it never changes the heading counters. -/
theorem convertLoop_off (lines : List String) :
    ∀ (fuel i : Nat) (st : Converter × List (String × String)),
      st.1.settings.auto_numbering_headings = false →
      (convertLoop lines fuel i st).1.settings = st.1.settings ∧
      (convertLoop lines fuel i st).1.heading_counters = st.1.heading_counters := by
  intro fuel
  induction fuel with
  | zero => intro i st h; exact ⟨rfl, rfl⟩
  | succ n ih =>
    intro i st h
    rw [convertLoop]
    split
    · have hstep := convertStep_off lines i st.1 st.2 h
      have h2 : (convertStep lines i st.1 st.2).2.1.settings.auto_numbering_headings = false := by
        rw [hstep.1]; exact h
      have hrec := ih (convertStep lines i st.1 st.2).1 (convertStep lines i st.1 st.2).2 h2
      exact ⟨hrec.1.trans hstep.1, hrec.2.trans hstep.2⟩
    · exact ⟨rfl, rfl⟩

/-- C10: with auto numbering disabled, generate_heading_number returns the
empty string and leaves the converter (in particular all six heading
counters) unchanged, and consequently a whole conversion with numbering off
ends with the heading counters still at their six initial zeros. -/
theorem numbering_off_frame (c : Converter) (level : Nat)
    (settings : DocumentSettings) (content : String)
    (hc : c.settings.auto_numbering_headings = false)
    (hs : settings.auto_numbering_headings = false) :
    generate_heading_number c level = ("", c) ∧
    (convertEnd (mkConverter settings) content).1.heading_counters =
      List.replicate 6 0 := by
  refine ⟨generate_heading_number_off c level hc, ?_⟩
  unfold convertEnd
  exact (convertLoop_off _ _ _ (mkConverter settings, []) hs).2

theorem numbering_off_frame_witness :
    generate_heading_number (mkConverter defaultSettings) 3 =
      ("", mkConverter defaultSettings) ∧
    (convertEnd (mkConverter defaultSettings) "# A\n- x").1.heading_counters =
      List.replicate 6 0 :=
  numbering_off_frame (mkConverter defaultSettings) 3 defaultSettings "# A\n- x"
    (by decide) (by decide)

/-- C5: whenever the collected footnote-definition set is nonempty, the
appended tail is the separator paragraph followed by exactly one footnote
block per definition; the emitted keys are sorted in ascending numeric
order and are a permutation of the collected keys, regardless of the order
the definitions appeared in; on the claim's example the definition of key
2 is emitted before the one of key 10 although it appeared later. -/
theorem footnotes_sorted (defs : List (String × String)) (hne : defs ≠ []) :
    footnoteTail defs =
      Block.paragraph sepLine ::
        (sortedKeys defs).map (fun k => Block.footnoteDef k (lookupD defs k)) ∧
    List.Sorted intLE (sortedKeys defs) ∧
    (sortedKeys defs).Perm (defs.map Prod.fst) ∧
    (sortedKeys defs).length = defs.length ∧
    convertContent defaultSettings "[^10]: x\n[^2]: y" =
      [Block.paragraph sepLine, Block.footnoteDef "2" "y",
       Block.footnoteDef "10" "x"] := by
  refine ⟨?_, List.sorted_insertionSort intLE _, List.perm_insertionSort intLE _,
    ?_, by decide⟩
  · unfold footnoteTail
    rw [List.isEmpty_eq_false.mpr hne]
    simp
  · exact ((List.perm_insertionSort intLE _).length_eq).trans (List.length_map _ _)

theorem footnotes_sorted_witness :
    footnoteTail [("10", "x"), ("2", "y")] =
      Block.paragraph sepLine ::
        (sortedKeys [("10", "x"), ("2", "y")]).map
          (fun k => Block.footnoteDef k (lookupD [("10", "x"), ("2", "y")] k)) ∧
    List.Sorted intLE (sortedKeys [("10", "x"), ("2", "y")]) ∧
    (sortedKeys [("10", "x"), ("2", "y")]).Perm
      ([("10", "x"), ("2", "y")].map Prod.fst) ∧
    (sortedKeys [("10", "x"), ("2", "y")]).length =
      ([("10", "x"), ("2", "y")] : List (String × String)).length ∧
    convertContent defaultSettings "[^10]: x\n[^2]: y" =
      [Block.paragraph sepLine, Block.footnoteDef "2" "y",
       Block.footnoteDef "10" "x"] :=
  footnotes_sorted [("10", "x"), ("2", "y")] (by decide)

/-- C8: for every successfully parsed table (at least two collected pipe
lines) and either configured caption position, the table counter increments
exactly once, and the caption "Таблица N" is emitted before the table body
when the position is above and after it when the position is below. -/
theorem table_caption_position (settings : DocumentSettings) (tc : Nat)
    (lines : List String) (i : Nat)
    (hlen : 2 ≤ (collectTable (lines.drop i)).1.length)
    (hpos : settings.table_caption_position = "above" ∨
        settings.table_caption_position = "below") :
    (process_table settings tc lines i).2.1 = tc + 1 ∧
    (settings.table_caption_position = "above" →
      (process_table settings tc lines i).1 =
        [Block.caption ("Таблица " ++ toString (tc + 1)),
         Block.table (tableHeaders (collectTable (lines.drop i)).1)
           (tableRows (collectTable (lines.drop i)).1)]) ∧
    (settings.table_caption_position = "below" →
      (process_table settings tc lines i).1 =
        [Block.table (tableHeaders (collectTable (lines.drop i)).1)
           (tableRows (collectTable (lines.drop i)).1),
         Block.caption ("Таблица " ++ toString (tc + 1))]) := by
  rcases hco : collectTable (lines.drop i) with ⟨tl, k⟩
  rw [hco] at hlen
  dsimp only at hlen
  have hnl : ¬ tl.length < 2 := by omega
  unfold process_table
  rw [hco]
  dsimp only
  rcases hpos with hp | hp <;> rw [hp]
  · exact ⟨by simp [hnl], fun _ => by simp [hnl],
      fun hcontra => absurd hcontra (by decide)⟩
  · exact ⟨by simp [hnl], fun hcontra => absurd hcontra (by decide),
      fun _ => by simp [hnl]⟩

theorem table_caption_position_witness :
    (process_table defaultSettings 0 ["| a |", "| b |"] 0).2.1 = 0 + 1 ∧
    (defaultSettings.table_caption_position = "above" →
      (process_table defaultSettings 0 ["| a |", "| b |"] 0).1 =
        [Block.caption ("Таблица " ++ toString (0 + 1)),
         Block.table (tableHeaders (collectTable (["| a |", "| b |"].drop 0)).1)
           (tableRows (collectTable (["| a |", "| b |"].drop 0)).1)]) ∧
    (defaultSettings.table_caption_position = "below" →
      (process_table defaultSettings 0 ["| a |", "| b |"] 0).1 =
        [Block.table (tableHeaders (collectTable (["| a |", "| b |"].drop 0)).1)
           (tableRows (collectTable (["| a |", "| b |"].drop 0)).1),
         Block.caption ("Таблица " ++ toString (0 + 1))]) :=
  table_caption_position defaultSettings 0 ["| a |", "| b |"] 0 (by decide)
    (Or.inl (by decide))

/-- The first element surviving dropWhile fails the predicate. -/
theorem dropWhile_head_not (p : Char → Bool) :
    ∀ (l : List Char) (c : Char), (l.dropWhile p).head? = some c → p c = false := by
  intro l
  induction l with
  | nil => intro c h; simp [List.dropWhile] at h
  | cons a t ih =>
    intro c h
    rw [List.dropWhile_cons] at h
    by_cases hp : p a = true
    · rw [if_pos hp] at h
      exact ih c h
    · rw [if_neg hp] at h
      simp only [List.head?_cons, Option.some.injEq] at h
      rw [← h]
      exact Bool.not_eq_true _ |>.mp hp

/-- The first character of a stripped string is never whitespace. -/
theorem pyStrip_head_not_space (s : String) (c : Char)
    (h : (pyStrip s).data.head? = some c) : isSpaceChar c = false := by
  unfold pyStrip at h
  set m := s.data.dropWhile isSpaceChar with hm
  have hsuf : m.reverse.dropWhile isSpaceChar <:+ m.reverse :=
    List.dropWhile_suffix _
  have hpre : (m.reverse.dropWhile isSpaceChar).reverse <+: m := by
    have h2 := List.reverse_prefix.mpr hsuf
    rwa [List.reverse_reverse] at h2
  rcases hpre with ⟨t2, ht⟩
  have hmh : m.head? = some c := by
    rcases hd : (m.reverse.dropWhile isSpaceChar).reverse with _ | ⟨c1, ct⟩
    · rw [hd] at h; simp at h
    · rw [hd] at h ht
      simp only [List.head?_cons, Option.some.injEq] at h
      rw [← ht, h]
      rfl
  exact dropWhile_head_not isSpaceChar s.data c hmh

/-- A string whose first character is not whitespace matches neither
two-space-indented list pattern. -/
theorem not_space_head_indent_none (s : String)
    (h : ∀ c, s.data.head? = some c → isSpaceChar c = false) :
    matchIndentBullet s = none ∧ matchIndentNumber s = none := by
  cases hd : s.data with
  | nil => constructor <;> simp [matchIndentBullet, matchIndentNumber, hd]
  | cons c ct =>
    have hns := h c (by rw [hd]; rfl)
    have hc : (c == ' ') = false := by
      rcases Bool.eq_false_or_eq_true (c == ' ') with h' | h'
      · have hce : c = ' ' := by simpa using h'
        rw [hce] at hns
        simp [isSpaceChar] at hns
      · exact h'
    cases ct with
    | nil => constructor <;> simp [matchIndentBullet, matchIndentNumber, hd]
    | cons c2 ct2 =>
      constructor <;> simp [matchIndentBullet, matchIndentNumber, hd, hc]

/-- C4 (code versus claim): process_list strips every line before matching,
so the two-space-indent patterns can never fire; every collected item is
tagged with nesting level 0 and rendered with indent 0, including the
two-space-indented line of the claim's example.  (The claim's remaining
parts hold: blank lines inside the run are skipped, unprefixed markers get
level 0, and the indent formula grows with the level.) -/
theorem nested_list_indent_dead :
    (∀ s : String, matchIndentBullet (pyStrip s) = none ∧
        matchIndentNumber (pyStrip s) = none) ∧
    process_list ["- a", "  - b"] 0 =
      ([Block.listItem "bullet" "a" 0 (listIndentCm100 0),
        Block.listItem "bullet" "b" 0 (listIndentCm100 0)], 2) ∧
    convertContent defaultSettings "- a\n\n  - b" =
      [Block.listItem "bullet" "a" 0 0, Block.listItem "bullet" "b" 0 0] ∧
    listIndentCm100 0 < listIndentCm100 1 := by
  refine ⟨?_, by decide, by decide, by decide⟩
  intro s
  exact not_space_head_indent_none (pyStrip s)
    (fun c hc => pyStrip_head_not_space s c hc)

/-- A block is one of the two blocks only the bibliography emitter
produces. -/
def notBib : Block → Bool
  | Block.bibHeading => false
  | Block.bibItem _ _ => false
  | _ => true

/-- A line the bibliography regex accepts necessarily starts with a hash
character, which is exactly the condition that routes the line into the
heading branch earlier in the elif chain. -/
theorem bib_needs_hash (s : String) (h : matchBibHeading s = true) :
    startsWithS s "#" = true := by
  unfold matchBibHeading at h
  unfold startsWithS
  cases hd : s.data with
  | nil => rw [hd] at h; simp at h
  | cons c t =>
    try rw [hd] at h
    try rw [hd]
    by_cases hc : (c == '#') = true
    · have hce : c = '#' := by simpa using hc
      subst hce
      simp [List.isPrefixOf]
    · rw [List.takeWhile_cons] at h
      simp [hc] at h

/-- generate_heading_number never touches the document. -/
theorem generate_heading_number_doc (c : Converter) (L : Nat) :
    (generate_heading_number c L).2.doc = c.doc := by
  unfold generate_heading_number
  dsimp only
  repeat' split
  all_goals rfl

theorem process_code_block_notBib (lines : List String) (i : Nat) :
    ((process_code_block lines i).1).all notBib = true := by
  unfold process_code_block
  dsimp only
  rfl

theorem process_table_notBib (settings : DocumentSettings) (tc : Nat)
    (lines : List String) (i : Nat) :
    ((process_table settings tc lines i).1).all notBib = true := by
  unfold process_table
  dsimp only
  repeat' split
  all_goals rfl

theorem process_list_notBib (lines : List String) (i : Nat) :
    ((process_list lines i).1).all notBib = true := by
  unfold process_list
  dsimp only
  rw [List.all_eq_true]
  intro b hb
  rcases List.mem_map.mp hb with ⟨it, _, rfl⟩
  rfl

theorem footnoteTail_notBib (defs : List (String × String)) :
    (footnoteTail defs).all notBib = true := by
  unfold footnoteTail
  split
  · rfl
  · rw [List.all_eq_true]
    intro b hb
    rcases List.mem_cons.mp hb with rfl | hb2
    · rfl
    · rcases List.mem_map.mp hb2 with ⟨k, _, rfl⟩
      rfl

/-- One loop step preserves the absence of bibliography blocks: every branch
appends only non-bibliography blocks, and the bibliography branch itself is
unreachable because its guard requires a line starting with a hash, which
the heading branch has already consumed. -/
theorem convertStep_notBib (lines : List String) (i : Nat) (c : Converter)
    (defs : List (String × String)) (h : c.doc.all notBib = true) :
    ((convertStep lines i c defs).2.1.doc).all notBib = true := by
  unfold convertStep
  dsimp only
  split
  · exact h
  split
  · exact h
  split
  · split
    · split
      · rw [generate_heading_number_doc]
        simp [List.all_append, h, notBib]
      · rw [generate_heading_number_doc]
        simp [List.all_append, h, notBib]
    · exact h
  split
  · simp only [List.all_append, h, Bool.true_and]
    exact process_code_block_notBib lines i
  split
  · simp only [List.all_append, h, Bool.true_and]
    exact process_table_notBib c.settings c.table_counter lines i
  split
  · simp only [List.all_append, h, Bool.true_and]
    exact process_list_notBib lines i
  split
  · exfalso
    have hbib : matchBibHeading (pyStrip (lines.getD i "")) = true := by assumption
    have hhash : ¬ startsWithS (pyStrip (lines.getD i "")) "#" = true := by assumption
    exact hhash (bib_needs_hash _ hbib)
  split
  · simp [List.all_append, h, notBib]
  split
  · simp [List.all_append, h, notBib]
  simp [List.all_append, h, notBib]

theorem convertLoop_notBib (lines : List String) :
    ∀ (fuel i : Nat) (st : Converter × List (String × String)),
      st.1.doc.all notBib = true →
      ((convertLoop lines fuel i st).1.doc).all notBib = true := by
  intro fuel
  induction fuel with
  | zero => intro i st h; exact h
  | succ n ih =>
    intro i st h
    rw [convertLoop]
    split
    · exact ih _ _ (convertStep_notBib lines i st.1 st.2 h)
    · exact h

/-- C3 (code versus claim): no conversion ever emits a bibliography block -
the bibliography elif is dead code, since every line its regex accepts is
already taken by the heading branch - and on the claim's example the
numbered line following the Bibliography heading is emitted as an ordinary
numbered list item, not routed to the bibliography emitter. -/
theorem bibliography_branch_dead :
    (∀ (settings : DocumentSettings) (content : String),
      (convertContent settings content).all notBib = true) ∧
    convertContent defaultSettings "# Bibliography\n1. Ivanov I.I." =
      [Block.heading 1 "Bibliography",
       Block.listItem "number" "Ivanov I.I." 0 0] := by
  refine ⟨?_, by decide⟩
  intro settings content
  unfold convertContent convertFrom
  dsimp only
  simp only [List.all_append, Bool.and_eq_true]
  exact ⟨convertLoop_notBib _ _ _ _ rfl, footnoteTail_notBib _⟩

/-- The ignore set of rep_to_txt.py: version-control, build, IDE and OS
metadata names excluded from the rendered tree. -/
def IGNORE_PATTERNS : List String :=
  [".git", ".svn", ".hg", "__pycache__", ".pytest_cache", "node_modules",
   ".npm", "target", "build", "dist", ".idea", ".vscode", ".DS_Store",
   "Thumbs.db", ".pro.user"]

/-- A file-system tree as scan_directory observes it: a directory with its
listed children, or a plain file.  Names within one directory are unique on
a real file system; os.listdir order is irrelevant because the code sorts. -/
inductive FSEntry where
  | dir (nm : String) (children : List FSEntry)
  | file (nm : String)

/-- The name under which an entry appears in os.listdir. -/
def entryName : FSEntry → String
  | FSEntry.dir nm _ => nm
  | FSEntry.file nm => nm

/-- os.path.isdir for an entry. -/
def isDirB : FSEntry → Bool
  | FSEntry.dir _ _ => true
  | FSEntry.file _ => false

/-- The comparison used by sorted(os.listdir(path)): alphabetical order of
the entry names. -/
def sortLE (a b : FSEntry) : Prop := entryName a ≤ entryName b

instance : DecidableRel sortLE := fun a b =>
  inferInstanceAs (Decidable (entryName a ≤ entryName b))

instance : IsTotal FSEntry sortLE :=
  ⟨fun a b => le_total (entryName a) (entryName b)⟩

instance : IsTrans FSEntry sortLE := ⟨fun _ _ _ hab hbc => le_trans hab hbc⟩

/-- The dirs list of scan_directory: the sorted entries that are directories
and not in the ignore set, in sorted order. -/
def dirsOf (children : List FSEntry) : List FSEntry :=
  (List.insertionSort sortLE children).filter fun e =>
    isDirB e && !(IGNORE_PATTERNS.contains (entryName e))

/-- The files list of scan_directory: the sorted entries that are files and
not in the ignore set, in sorted order. -/
def filesOf (children : List FSEntry) : List FSEntry :=
  (List.insertionSort sortLE children).filter fun e =>
    !(isDirB e) && !(IGNORE_PATTERNS.contains (entryName e))

/-- all_items of scan_directory: directories first, then files. -/
def orderedEntries (children : List FSEntry) : List FSEntry :=
  dirsOf children ++ filesOf children

/-- Any member of all_items is structurally smaller than the children list
it was drawn from (used for the termination of the tree recursion). -/
theorem sizeOf_lt_of_mem_ordered {e : FSEntry} {children : List FSEntry}
    (h : e ∈ orderedEntries children) : sizeOf e < sizeOf children := by
  have h2 : e ∈ List.insertionSort sortLE children := by
    unfold orderedEntries dirsOf filesOf at h
    rcases List.mem_append.mp h with h' | h'
    · exact (List.mem_filter.mp h').1
    · exact (List.mem_filter.mp h').1
  exact List.sizeOf_lt_of_mem
    ((List.perm_insertionSort sortLE children).mem_iff.mp h2)

mutual

/-- scan_directory of rep_to_txt.py: order and filter the children, then for
each item (tracked with its position, as the Python enumerate loop does)
emit its connector line - the box-drawing last-entry connector when the
index equals the last index, the tee connector otherwise - followed by the
recursively rendered children of a directory under the prefix extended with
either the blank continuation or the vertical-bar continuation. -/
def scan_directory (children : List FSEntry) (pfx : String) : List String :=
  let all_items := orderedEntries children
  (all_items.attach.enum).flatMap fun p =>
    ((if p.1 = all_items.length - 1 then pfx ++ "└── " else pfx ++ "├── ") ++
        entryName p.2.1) ::
      childLines p.2.1
        (if p.1 = all_items.length - 1 then pfx ++ "    " else pfx ++ "│   ")
termination_by sizeOf children
decreasing_by
  have h1 : sizeOf p.2.1 < sizeOf children := sizeOf_lt_of_mem_ordered p.2.2
  omega

/-- The recursion into one item: a directory contributes the scan of its
children, a file contributes nothing. -/
def childLines (e : FSEntry) (pfx : String) : List String :=
  match e with
  | FSEntry.dir _ cs => scan_directory cs pfx
  | FSEntry.file _ => []
termination_by sizeOf e
decreasing_by
  simp only [FSEntry.dir.sizeOf_spec]
  omega

end

/-- The per-item rendering of scan_directory, abstracted over the position
check: connector line plus child block. -/
def scanLine (f : FSEntry → String → List String) (n : Nat) (pfx : String)
    (i : Nat) (e : FSEntry) : List String :=
  ((if i = n - 1 then pfx ++ "└── " else pfx ++ "├── ") ++ entryName e) ::
    f e (if i = n - 1 then pfx ++ "    " else pfx ++ "│   ")

/-- The rendering the spec describes, structured by last-entry position: the
last entry at any depth gets the corner connector and passes the blank
continuation to its children; every other entry gets the tee connector and
passes the vertical-bar continuation. -/
def renderItems (f : FSEntry → String → List String) (pfx : String) :
    List FSEntry → List String
  | [] => []
  | [e] => ((pfx ++ "└── ") ++ entryName e) :: f e (pfx ++ "    ")
  | e :: e2 :: rest =>
    ((pfx ++ "├── ") ++ entryName e) ::
      (f e (pfx ++ "│   ") ++ renderItems f pfx (e2 :: rest))

/-- Dropping the membership proofs from an enumerated attach before a
flatMap that never uses them. -/
theorem attach_enum_flatMap {α β : Type} (l : List α) (F : Nat → α → List β) :
    ((l.attach.enum).flatMap fun p => F p.1 p.2.1) =
      (l.enum).flatMap fun q => F q.1 q.2 := by
  conv_rhs => rw [← List.attach_map_subtype_val l, List.enum_map,
    List.flatMap_map]
  rfl

/-- scan_directory with the proofs erased: a plain enumerated flatMap of
scanLine over the ordered entries. -/
theorem scan_directory_enum (children : List FSEntry) (pfx : String) :
    scan_directory children pfx =
      ((orderedEntries children).enum).flatMap fun q =>
        scanLine childLines (orderedEntries children).length pfx q.1 q.2 := by
  rw [scan_directory.eq_def]
  exact attach_enum_flatMap (orderedEntries children)
    (scanLine childLines (orderedEntries children).length pfx)

/-- The index-based last-entry test of the enumerate loop coincides with the
structural last-entry rendering, at any starting offset. -/
theorem enumFrom_scanLine (f : FSEntry → String → List String) (pfx : String) :
    ∀ (l : List FSEntry) (k : Nat),
      ((List.enumFrom k l).flatMap fun q =>
        scanLine f (k + l.length) pfx q.1 q.2) = renderItems f pfx l := by
  intro l
  induction l with
  | nil => intro k; rfl
  | cons e tail ih =>
    intro k
    cases tail with
    | nil =>
      have h1 : k + ([e] : List FSEntry).length - 1 = k := by simp
      simp [scanLine, renderItems, h1]
    | cons e2 rest =>
      have hn : k + (e :: e2 :: rest).length = (k + 1) + (e2 :: rest).length := by
        simp [List.length_cons]
        omega
      rw [List.enumFrom_cons, List.flatMap_cons]
      simp only [hn]
      rw [ih (k + 1)]
      have hne : ¬ (k = (k + 1) + (e2 :: rest).length - 1) := by
        simp [List.length_cons]
        omega
      simp only [scanLine, if_neg hne]
      rfl

/-- No entry of all_items carries an ignored name. -/
theorem mem_ordered_not_ignored (children : List FSEntry) :
    ∀ e ∈ orderedEntries children, entryName e ∉ IGNORE_PATTERNS := by
  intro e he hmem
  have hcontains : IGNORE_PATTERNS.contains (entryName e) = true :=
    List.elem_iff.mpr hmem
  unfold orderedEntries dirsOf filesOf at he
  rcases List.mem_append.mp he with h' | h' <;>
    (have hp := (List.mem_filter.mp h').2
     rw [Bool.and_eq_true] at hp
     rw [hcontains] at hp
     simp at hp)

/-- C9: the rendered directory tree lists, at every level, the (sorted,
non-ignored) directories before the (sorted, non-ignored) files; the
enumerate-with-index rendering of the source equals the structural
rendering in which the last entry of a level gets the corner connector and
every other entry the tee connector, with the child prefix extended by the
blank or the vertical-bar continuation accordingly (the equation applies
recursively at every level through childLines). -/
theorem scan_directory_structure (children : List FSEntry) (pfx : String) :
    scan_directory children pfx =
      renderItems childLines pfx (orderedEntries children) ∧
    orderedEntries children = dirsOf children ++ filesOf children ∧
    (∀ e ∈ orderedEntries children, entryName e ∉ IGNORE_PATTERNS) ∧
    (∀ e ∈ dirsOf children, isDirB e = true) ∧
    (∀ e ∈ filesOf children, isDirB e = false) ∧
    List.Sorted sortLE (dirsOf children) ∧
    List.Sorted sortLE (filesOf children) := by
  refine ⟨?_, rfl, mem_ordered_not_ignored children, ?_, ?_, ?_, ?_⟩
  · rw [scan_directory_enum, List.enum_eq_enumFrom]
    have hb := enumFrom_scanLine childLines pfx (orderedEntries children) 0
    simpa using hb
  · intro e he
    have hp := (List.mem_filter.mp he).2
    rw [Bool.and_eq_true] at hp
    exact hp.1
  · intro e he
    have hp := (List.mem_filter.mp he).2
    rw [Bool.and_eq_true] at hp
    have := hp.1
    rwa [Bool.not_eq_true'] at this
  · exact List.Sorted.filter _ (List.sorted_insertionSort sortLE children)
  · exact List.Sorted.filter _ (List.sorted_insertionSort sortLE children)
